import Mathlib

/-!
Verification of the voice-command controller (`useVoiceCommands`) and the
Scan page's `onAdd` callback of the vision-aid shopping application.

The TypeScript source is shallowly embedded:
* `processCommand` becomes a pure function from a transcript (a `String`) to
  the returned command together with an ordered trace of observable effects
  (announcements, speech, state writes, callback invocations);
* the controller's React state (`isListening`, `isSupported`, `lastCommand`,
  `recognitionRef`) becomes an explicit record `CtrlState`, and each entry
  point / engine event handler becomes a case of a step function
  `step : CtrlState → Ev → CtrlState × List Effect`;
* engine sessions are identified by natural numbers allocated by a counter;
  the set of engine sessions currently running is tracked in `engineActive`.
-/

/-- The closed set of voice commands (`VoiceCommand` union type in the source). -/
inductive VoiceCommand
  | capture
  | add
  | details
  | cart
  | help
  | start
  | stop
  | undo
deriving DecidableEq, Repr

/-- The string tag of a command, as it appears in announcements
(template `Command recognized: ${command}` in the source). -/
def VoiceCommand.tag : VoiceCommand → String
  | .capture => "capture"
  | .add => "add"
  | .details => "details"
  | .cart => "cart"
  | .help => "help"
  | .start => "start"
  | .stop => "stop"
  | .undo => "undo"

/-- `startsWithCh hay pat` : does `hay` begin with `pat`?  (character lists) -/
def startsWithCh : List Char → List Char → Bool
  | _, [] => true
  | [], _ :: _ => false
  | a :: as, b :: bs => a == b && startsWithCh as bs

/-- `containsSub hay pat` : does `pat` occur as a contiguous substring of `hay`?
This embeds JavaScript `hay.includes(pat)`. -/
def containsSub : List Char → List Char → Bool
  | [], pat => pat.isEmpty
  | a :: as, pat => startsWithCh (a :: as) pat || containsSub as pat

/-- Trim leading and trailing whitespace (JavaScript `String.prototype.trim`). -/
def trimChars (cs : List Char) : List Char :=
  ((cs.dropWhile Char.isWhitespace).reverse.dropWhile Char.isWhitespace).reverse

/-- `transcript.toLowerCase().trim()` from the source: lowercase every
character, then trim surrounding whitespace. -/
def normalizeChars (cs : List Char) : List Char :=
  trimChars (cs.map Char.toLower)

/-- One row of the command table: the trigger phrases and the command.
(The source also stores the per-command handler in the row; handler
registration is modelled separately by `HandlerReg`.) -/
structure CommandEntry where
  patterns : List String
  command : VoiceCommand
deriving DecidableEq, Repr

/-- The fixed, ordered command table from `processCommand`
(order: capture, add, details, cart, help, start, stop, undo). -/
def commands : List CommandEntry :=
  [ ⟨["capture", "take photo", "snap", "photograph", "picture"], .capture⟩,
    ⟨["add", "add to cart", "add item", "buy"], .add⟩,
    ⟨["details", "more info", "information", "tell me more", "what is this"], .details⟩,
    ⟨["cart", "go to cart", "view cart", "shopping cart", "my cart"], .cart⟩,
    ⟨["help", "assist", "assistance", "tutorial"], .help⟩,
    ⟨["start", "start camera", "open camera", "begin"], .start⟩,
    ⟨["stop", "stop camera", "close camera", "end"], .stop⟩,
    ⟨["undo", "cancel", "remove last", "go back"], .undo⟩ ]

/-- `patterns.some(pattern => lowerTranscript.includes(pattern))` from the
source: the entry matches when some trigger phrase is a substring of the
normalized transcript. -/
def entryMatches (lt : List Char) (e : CommandEntry) : Bool :=
  e.patterns.any (fun p => containsSub lt p.data)

/-- The first matching row of the command table for a transcript
(the `for … if … return` loop of `processCommand`). -/
def matchedEntry (transcript : String) : Option CommandEntry :=
  commands.find? (entryMatches (normalizeChars transcript.data))

/-- Which optional callbacks the caller registered
(the `UseVoiceCommandsOptions` record: which of the handlers is non-undefined). -/
structure HandlerReg where
  capture : Bool
  add : Bool
  details : Bool
  cart : Bool
  help : Bool
  start : Bool
  stop : Bool
  undo : Bool
  onCommand : Bool
deriving DecidableEq, Repr

/-- Whether a per-command handler is registered for a given command. -/
def HandlerReg.has (r : HandlerReg) : VoiceCommand → Bool
  | .capture => r.capture
  | .add => r.add
  | .details => r.details
  | .cart => r.cart
  | .help => r.help
  | .start => r.start
  | .stop => r.stop
  | .undo => r.undo

/-- A registration with no callbacks at all. -/
def noHandlers : HandlerReg :=
  ⟨false, false, false, false, false, false, false, false, false⟩

/-- Observable effects of the controller, in execution order:
`announce`/`speak` are the two narration channels, `setLastCommand` is the
write to the `lastCommand` state, `callHandler c` is the invocation of the
per-command callback, `callOnCommand c` of the generic callback,
`engineStart`/`engineStop` are calls into the speech engine for a session. -/
inductive Effect
  | announce (msg : String)
  | speak (msg : String)
  | setLastCommand (c : VoiceCommand)
  | callHandler (c : VoiceCommand)
  | callOnCommand (c : VoiceCommand)
  | engineStart (sid : Nat)
  | engineStop (sid : Nat)
deriving DecidableEq, Repr

/-- Recognizer for announcement effects (the `announce` narration channel). -/
def Effect.isAnnounce : Effect → Bool
  | .announce _ => true
  | _ => false

/-- `processCommand` from the source: normalize the transcript, walk the
table in order, and on the first match record the command, announce it,
invoke the registered callbacks and return it; otherwise announce
non-recognition and return nothing.  The result pairs the returned value
with the ordered effect trace. -/
def processCommand (reg : HandlerReg) (transcript : String) :
    Option VoiceCommand × List Effect :=
  match matchedEntry transcript with
  | some e =>
      (some e.command,
        [Effect.setLastCommand e.command,
         Effect.announce ("Command recognized: " ++ e.command.tag)] ++
        (if reg.has e.command then [Effect.callHandler e.command] else []) ++
        (if reg.onCommand then [Effect.callOnCommand e.command] else []))
  | none =>
      (none, [Effect.announce "Command not recognized. Try: capture, add, cart, help."])

/-- State of one controller instance (the hook's React state plus the
engine-side view).  `ownedSession` is `recognitionRef.current` (sessions are
identified by the `Nat` allocated at their creation), `nextId` the allocation
counter, and `engineActive` lists the engine sessions currently running
(started and neither stopped nor naturally ended). -/
structure CtrlState where
  isSupported : Bool
  isListening : Bool
  lastCommand : Option VoiceCommand
  ownedSession : Option Nat
  nextId : Nat
  engineActive : List Nat
deriving DecidableEq, Repr

/-- The controller state right after mount and support detection: not
listening, no last command, no owned session, no engine session running. -/
def initState (sup : Bool) : CtrlState :=
  ⟨sup, false, none, none, 0, []⟩

/-- `recognition.start()`: starting an already-running session throws (the
source catches and ignores the exception, so nothing happens); otherwise the
session becomes active and the engine is invoked. -/
def engTryStart (active : List Nat) (sid : Nat) : List Nat × List Effect :=
  if sid ∈ active then (active, []) else (sid :: active, [Effect.engineStart sid])

/-- Events the controller reacts to: the two exported control actions, and
the engine-fired handlers of the session `sid` (`onstart`, `onend`,
`onerror` with the engine's error-kind string, `onresult` with the
transcript and its `isFinal` flag). -/
inductive Ev
  | startListening
  | stopListening
  | onstart (sid : Nat)
  | onend (sid : Nat)
  | onerror (sid : Nat) (kind : String)
  | onresult (sid : Nat) (transcript : String) (isFinal : Bool)
deriving DecidableEq, Repr

/-- Fold the `processCommand` state write into the controller state:
`setLastCommand` on a match, no change otherwise. -/
def applyResult (s : CtrlState) (r : Option VoiceCommand × List Effect) : CtrlState :=
  match r.1 with
  | some c => { s with lastCommand := some c }
  | none => s

/-- One event of the controller, embedding the bodies of `startListening`,
`stopListening` and the installed `onstart`/`onend`/`onerror`/`onresult`
handlers.  Returns the next state and the ordered trace of observable
effects. -/
def step (reg : HandlerReg) (s : CtrlState) : Ev → CtrlState × List Effect
  | .startListening =>
      if s.isSupported then
        let sid := s.nextId
        let started := engTryStart s.engineActive sid
        ({ s with ownedSession := some sid, nextId := sid + 1,
                  engineActive := started.1 },
         started.2)
      else
        (s, [Effect.speak "Voice commands are not supported in this browser."])
  | .stopListening =>
      match s.ownedSession with
      | some sid =>
          ({ s with ownedSession := none, isListening := false,
                    engineActive := s.engineActive.erase sid },
           [Effect.engineStop sid, Effect.announce "Voice commands deactivated."])
      | none => (s, [])
  | .onstart _ =>
      ({ s with isListening := true },
       [Effect.announce "Voice commands activated. Say a command like capture, add, or cart."])
  | .onend sid =>
      let ended := { s with isListening := false,
                            engineActive := s.engineActive.erase sid }
      if s.ownedSession = some sid then
        let restarted := engTryStart ended.engineActive sid
        ({ ended with engineActive := restarted.1 }, restarted.2)
      else
        (ended, [])
  | .onerror _ kind =>
      if kind = "not-allowed" then
        ({ s with isListening := false },
         [Effect.speak "Microphone permission denied. Please allow microphone access."])
      else if kind ≠ "no-speech" ∧ kind ≠ "aborted" then
        (s, [Effect.announce ("Voice error: " ++ kind)])
      else
        (s, [])
  | .onresult _ transcript isFinal =>
      if isFinal then
        let r := processCommand reg transcript
        (applyResult s r, r.2)
      else
        (s, [])

/-- Run a sequence of events from a state, returning the final state. -/
def run (reg : HandlerReg) (s : CtrlState) : List Ev → CtrlState
  | [] => s
  | e :: es => run reg (step reg s e).1 es

/-- A product as held in `state.currentProduct` on the Scan page (only its
truthiness matters to the embedded callback). -/
structure Product where
  productId : String
  name : String
deriving DecidableEq, Repr

/-- Effects of the Scan page callbacks: deliberate speech and synthesized
keyboard events (`window.dispatchEvent(new KeyboardEvent('keydown', …))`,
recorded with the event's `key`). -/
inductive PageEffect
  | speak (msg : String)
  | dispatchKeydown (key : String)
deriving DecidableEq, Repr

/-- Recognizer for synthesized keydown events. -/
def PageEffect.isKeydown : PageEffect → Bool
  | .dispatchKeydown _ => true
  | _ => false

/-- The Scan page's `onAdd` callback: with a current product it speaks and
synthesizes a keydown with key `a`; without one it only speaks a guard
message. -/
def scanOnAdd (currentProduct : Option Product) : List PageEffect :=
  match currentProduct with
  | some _ => [PageEffect.speak "Adding item to cart.", PageEffect.dispatchKeydown "a"]
  | none => [PageEffect.speak "No product selected. Please scan a product first."]

/-- The single-owned-session invariant that holds along executions obeying
the stop-before-start discipline: with no owned handle no engine session
runs, and with an owned handle at most that session runs. -/
def sessionInv (s : CtrlState) : Prop :=
  (s.ownedSession = none → s.engineActive = []) ∧
  (∀ sid, s.ownedSession = some sid → s.engineActive = [] ∨ s.engineActive = [sid])

/-- Controller states reachable when `startListening` is only invoked while
no session handle is owned (the discipline `toggleListening` enforces),
interleaved with arbitrary engine events and `stopListening` calls. -/
inductive ReachableT (reg : HandlerReg) : CtrlState → Prop
  | init (sup : Bool) : ReachableT reg (initState sup)
  | startL {s : CtrlState} : ReachableT reg s → s.ownedSession = none →
      ReachableT reg (step reg s Ev.startListening).1
  | stopL {s : CtrlState} : ReachableT reg s →
      ReachableT reg (step reg s Ev.stopListening).1
  | evStart {s : CtrlState} (sid : Nat) : ReachableT reg s →
      ReachableT reg (step reg s (Ev.onstart sid)).1
  | evEnd {s : CtrlState} (sid : Nat) : ReachableT reg s →
      ReachableT reg (step reg s (Ev.onend sid)).1
  | evError {s : CtrlState} (sid : Nat) (kind : String) : ReachableT reg s →
      ReachableT reg (step reg s (Ev.onerror sid kind)).1
  | evResult {s : CtrlState} (sid : Nat) (t : String) (b : Bool) : ReachableT reg s →
      ReachableT reg (step reg s (Ev.onresult sid t b)).1

/-- `List.find?` returns the first element satisfying the predicate: the
list splits into a failing front, the found element, and a tail. -/
theorem find_first_split {α : Type} (p : α → Bool) (l : List α)
    (h : ∃ x ∈ l, p x = true) :
    ∃ front x back, l = front ++ x :: back ∧ (∀ y ∈ front, p y = false) ∧
      p x = true ∧ l.find? p = some x := by
  induction l with
  | nil => simp at h
  | cons a as ih =>
    by_cases hp : p a = true
    · exact ⟨[], a, as, rfl, by simp, hp, by simp [List.find?_cons, hp]⟩
    · have hpa : p a = false := by simpa using hp
      have h' : ∃ x ∈ as, p x = true := by
        rcases h with ⟨x, hx, hpx⟩
        rcases List.mem_cons.mp hx with h1 | h1
        · exact absurd (h1 ▸ hpx) hp
        · exact ⟨x, h1, hpx⟩
      rcases ih h' with ⟨front, x, back, heq, hfront, hpx, hfind⟩
      refine ⟨a :: front, x, back, by simp [heq], ?_, hpx, ?_⟩
      · intro y hy
        rcases List.mem_cons.mp hy with h1 | h1
        · exact h1 ▸ hpa
        · exact hfront y h1
      · simp [List.find?_cons, hpa, hfind]

/-- The returned value of `processCommand` is the command of the first
matching table row. -/
theorem processCommand_fst (reg : HandlerReg) (t : String) :
    (processCommand reg t).1 = (matchedEntry t).map CommandEntry.command := by
  cases he : matchedEntry t <;> simp [processCommand, he]

/-- The single-owned-session invariant is preserved along every
stop-before-start-disciplined execution. -/
theorem reachable_sessionInv {reg : HandlerReg} {s : CtrlState}
    (h : ReachableT reg s) : sessionInv s := by
  induction h with
  | init sup =>
    exact ⟨fun _ => rfl, fun sid hsid => by simp [initState] at hsid⟩
  | startL hr hnone ih =>
    rename_i s
    have hact : s.engineActive = [] := ih.1 hnone
    by_cases hsup : s.isSupported = true
    · have hstep : (step reg s Ev.startListening).1 =
          { s with ownedSession := some s.nextId, nextId := s.nextId + 1,
                   engineActive := [s.nextId] } := by
        simp [step, hsup, hact, engTryStart]
      rw [hstep]
      refine ⟨fun hn => by simp at hn, fun sid hsid => ?_⟩
      simp only at hsid
      have hid : s.nextId = sid := by simpa using hsid
      right
      simp [hid]
    · have hsup2 : s.isSupported = false := by simpa using hsup
      have hstep : (step reg s Ev.startListening).1 = s := by
        simp [step, hsup2]
      rw [hstep]; exact ih
  | stopL hr ih =>
    rename_i s
    cases hs : s.ownedSession with
    | none =>
      have hstep : (step reg s Ev.stopListening).1 = s := by simp [step, hs]
      rw [hstep]; exact ih
    | some sid =>
      have hor := ih.2 sid hs
      have hstep : (step reg s Ev.stopListening).1 =
          { s with ownedSession := none, isListening := false,
                   engineActive := s.engineActive.erase sid } := by
        simp [step, hs]
      rw [hstep]
      have herase : s.engineActive.erase sid = [] := by
        rcases hor with h1 | h1 <;> simp [h1]
      exact ⟨fun _ => herase, fun sid2 hsid2 => by simp at hsid2⟩
  | evStart sid hr ih =>
    rename_i s
    have hstep : (step reg s (Ev.onstart sid)).1 = { s with isListening := true } := rfl
    rw [hstep]; exact ih
  | evEnd sid hr ih =>
    rename_i s
    cases hs : s.ownedSession with
    | none =>
      have hact : s.engineActive = [] := ih.1 hs
      have hstep : (step reg s (Ev.onend sid)).1 =
          { s with isListening := false, engineActive := s.engineActive.erase sid } := by
        simp [step, hs]
      rw [hstep]
      exact ⟨fun _ => by simp [hact], fun sid2 hsid2 => by
        rw [hs] at hsid2; exact absurd hsid2 (by simp)⟩
    | some r =>
      have hor := ih.2 r hs
      by_cases hrs : r = sid
      · subst hrs
        have herase : s.engineActive.erase r = [] := by
          rcases hor with h1 | h1 <;> simp [h1]
        have hstep : (step reg s (Ev.onend r)).1 =
            { s with isListening := false, engineActive := [r] } := by
          simp [step, hs, herase, engTryStart]
        rw [hstep]
        refine ⟨fun hn => ?_, fun sid2 hsid2 => ?_⟩
        · rw [hs] at hn; exact absurd hn (by simp)
        · rw [hs] at hsid2
          have : r = sid2 := by simpa using hsid2
          right
          simp [this]
      · have herase : s.engineActive.erase sid = s.engineActive := by
          rcases hor with h1 | h1
          · simp [h1]
          · rw [h1]
            exact List.erase_of_not_mem
              (by simp only [List.mem_singleton]; exact fun h => hrs h.symm)
        have hstep : (step reg s (Ev.onend sid)).1 =
            { s with isListening := false, engineActive := s.engineActive } := by
          have hne : ¬ s.ownedSession = some sid := by
            rw [hs]; simp [hrs]
          simp [step, hne, herase]
        rw [hstep]
        refine ⟨fun hn => ?_, fun sid2 hsid2 => ?_⟩
        · rw [hs] at hn; exact absurd hn (by simp)
        · rw [hs] at hsid2
          have : r = sid2 := by simpa using hsid2
          exact this ▸ hor
  | evError sid kind hr ih =>
    rename_i s
    by_cases h1 : kind = "not-allowed"
    · have hstep : (step reg s (Ev.onerror sid kind)).1 =
          { s with isListening := false } := by simp [step, h1]
      rw [hstep]; exact ih
    · by_cases h2 : kind ≠ "no-speech" ∧ kind ≠ "aborted"
      · have hstep : (step reg s (Ev.onerror sid kind)).1 = s := by
          simp [step, h1, h2]
        rw [hstep]; exact ih
      · have hstep : (step reg s (Ev.onerror sid kind)).1 = s := by
          simp [step, h1, h2]
        rw [hstep]; exact ih
  | evResult sid t b hr ih =>
    rename_i s
    cases b with
    | false =>
      have hstep : (step reg s (Ev.onresult sid t false)).1 = s := by simp [step]
      rw [hstep]; exact ih
    | true =>
      cases hc : (processCommand reg t).1 with
      | none =>
        have hstep : (step reg s (Ev.onresult sid t true)).1 = s := by
          simp [step, applyResult, hc]
        rw [hstep]; exact ih
      | some c =>
        have hstep : (step reg s (Ev.onresult sid t true)).1 =
            { s with lastCommand := some c } := by
          simp [step, applyResult, hc]
        rw [hstep]; exact ih

/-- Claim C1: for every transcript whose lowercased, trimmed form contains a
configured trigger phrase as a substring, `processCommand` returns the
command of the first table row (in the fixed order capture, add, details,
cart, help, start, stop, undo) whose trigger set contains a matching
phrase; in particular "please add this to cart" returns `add` (not `cart`)
and "take a snapshot" returns `capture` (via the trigger "snap"). -/
theorem processCommand_first_match (reg : HandlerReg) (t : String)
    (h : ∃ e ∈ commands, entryMatches (normalizeChars t.data) e = true) :
    (∃ front e back, commands = front ++ e :: back ∧
        (∀ e0 ∈ front, entryMatches (normalizeChars t.data) e0 = false) ∧
        entryMatches (normalizeChars t.data) e = true ∧
        (processCommand reg t).1 = some e.command) ∧
    (processCommand reg "please add this to cart").1 = some VoiceCommand.add ∧
    (processCommand reg "take a snapshot").1 = some VoiceCommand.capture := by
  refine ⟨?_, ?_, ?_⟩
  · rcases find_first_split (entryMatches (normalizeChars t.data)) commands h with
      ⟨front, e, back, heq, hfront, hpe, hfind⟩
    refine ⟨front, e, back, heq, hfront, hpe, ?_⟩
    rw [processCommand_fst]
    unfold matchedEntry
    rw [hfind]
    rfl
  · rw [processCommand_fst]
    decide
  · rw [processCommand_fst]
    decide

/-- Witness for C1 at the transcript "add" with no registered callbacks. -/
theorem processCommand_first_match_witness :
    (∃ e ∈ commands, entryMatches (normalizeChars "add".data) e = true) ∧
    ((∃ front e back, commands = front ++ e :: back ∧
        (∀ e0 ∈ front, entryMatches (normalizeChars "add".data) e0 = false) ∧
        entryMatches (normalizeChars "add".data) e = true ∧
        (processCommand noHandlers "add").1 = some e.command) ∧
      (processCommand noHandlers "please add this to cart").1 = some VoiceCommand.add ∧
      (processCommand noHandlers "take a snapshot").1 = some VoiceCommand.capture) :=
  ⟨by decide, processCommand_first_match noHandlers "add" (by decide)⟩

/-- Claim C3: whenever `processCommand` matches a command it, in this order,
records the command as the last command, emits exactly one confirmation
announcement naming the command, invokes the per-command callback if
registered, invokes the generic callback if registered, and returns the
command. -/
theorem processCommand_match_effects (reg : HandlerReg) (t : String) (c : VoiceCommand)
    (h : (processCommand reg t).1 = some c) :
    (processCommand reg t).2 =
      [Effect.setLastCommand c, Effect.announce ("Command recognized: " ++ c.tag)] ++
      (if reg.has c = true then [Effect.callHandler c] else []) ++
      (if reg.onCommand = true then [Effect.callOnCommand c] else []) ∧
    ((processCommand reg t).2.filter Effect.isAnnounce).length = 1 := by
  cases he : matchedEntry t with
  | none =>
    rw [processCommand_fst, he] at h
    simp at h
  | some e =>
    have hc : e.command = c := by
      rw [processCommand_fst, he] at h
      simpa using h
    subst hc
    constructor
    · simp [processCommand, he]
    · by_cases h1 : reg.has e.command = true <;> by_cases h2 : reg.onCommand = true <;>
        simp [processCommand, he, h1, h2, Effect.isAnnounce]

/-- Witness for C3 at the transcript "add" with no registered callbacks. -/
theorem processCommand_match_effects_witness :
    (processCommand noHandlers "add").1 = some VoiceCommand.add ∧
    ((processCommand noHandlers "add").2 =
      [Effect.setLastCommand VoiceCommand.add,
       Effect.announce ("Command recognized: " ++ VoiceCommand.add.tag)] ++
      (if noHandlers.has VoiceCommand.add = true
        then [Effect.callHandler VoiceCommand.add] else []) ++
      (if noHandlers.onCommand = true
        then [Effect.callOnCommand VoiceCommand.add] else []) ∧
     ((processCommand noHandlers "add").2.filter Effect.isAnnounce).length = 1) :=
  ⟨by decide, processCommand_match_effects noHandlers "add" VoiceCommand.add (by decide)⟩

/-- Claim C4: for every transcript whose normalized form contains no
configured trigger phrase, `processCommand` returns `none`, produces
exactly one not-recognized announcement listing example commands, invokes
no callback and writes no last command (and, being a total function,
raises no error). -/
theorem processCommand_no_match (reg : HandlerReg) (t : String)
    (h : ∀ e ∈ commands, entryMatches (normalizeChars t.data) e = false) :
    processCommand reg t =
      (none, [Effect.announce "Command not recognized. Try: capture, add, cart, help."]) ∧
    ((processCommand reg t).2.filter Effect.isAnnounce).length = 1 ∧
    (∀ c : VoiceCommand,
        Effect.setLastCommand c ∉ (processCommand reg t).2 ∧
        Effect.callHandler c ∉ (processCommand reg t).2 ∧
        Effect.callOnCommand c ∉ (processCommand reg t).2) := by
  have hnone : matchedEntry t = none := by
    unfold matchedEntry
    apply List.find?_eq_none.mpr
    intro x hx
    simp [h x hx]
  refine ⟨by simp [processCommand, hnone], ?_, ?_⟩
  · simp [processCommand, hnone, Effect.isAnnounce]
  · intro c
    simp [processCommand, hnone]

/-- Witness for C4 at the trigger-free transcript "xyzzy". -/
theorem processCommand_no_match_witness :
    (∀ e ∈ commands, entryMatches (normalizeChars "xyzzy".data) e = false) ∧
    (processCommand noHandlers "xyzzy" =
      (none, [Effect.announce "Command not recognized. Try: capture, add, cart, help."]) ∧
     ((processCommand noHandlers "xyzzy").2.filter Effect.isAnnounce).length = 1 ∧
     (∀ c : VoiceCommand,
        Effect.setLastCommand c ∉ (processCommand noHandlers "xyzzy").2 ∧
        Effect.callHandler c ∉ (processCommand noHandlers "xyzzy").2 ∧
        Effect.callOnCommand c ∉ (processCommand noHandlers "xyzzy").2)) :=
  ⟨by decide, processCommand_no_match noHandlers "xyzzy" (by decide)⟩

/-- Claim C5: calling `startListening` when `isSupported` is false leaves
the controller state entirely unchanged (in particular `isListening` and
the session handle) and produces exactly one spoken unsupported-environment
notice. -/
theorem startListening_unsupported (reg : HandlerReg) (s : CtrlState)
    (h : s.isSupported = false) :
    step reg s Ev.startListening =
      (s, [Effect.speak "Voice commands are not supported in this browser."]) := by
  simp [step, h]

/-- Witness for C5 on a freshly mounted unsupported controller. -/
theorem startListening_unsupported_witness :
    (initState false).isSupported = false ∧
    step noHandlers (initState false) Ev.startListening =
      (initState false,
       [Effect.speak "Voice commands are not supported in this browser."]) :=
  ⟨rfl, startListening_unsupported noHandlers (initState false) rfl⟩

/-- Claim C6: `stopListening` clears the owned handle, sets the state to
idle, emits the engine stop followed by exactly one deactivation
announcement, and a late engine end event for the stopped session then has
no effect at all (in particular it does not trigger the auto-restart path)
and leaves the handle cleared. -/
theorem stopListening_clears_handle_no_restart (reg : HandlerReg) (s : CtrlState)
    (sid : Nat) (h : s.ownedSession = some sid) :
    (step reg s Ev.stopListening).1.ownedSession = none ∧
    (step reg s Ev.stopListening).1.isListening = false ∧
    (step reg s Ev.stopListening).2 =
      [Effect.engineStop sid, Effect.announce "Voice commands deactivated."] ∧
    (step reg (step reg s Ev.stopListening).1 (Ev.onend sid)).2 = [] ∧
    (step reg (step reg s Ev.stopListening).1 (Ev.onend sid)).1.ownedSession = none := by
  have hstep : step reg s Ev.stopListening =
      ({ s with ownedSession := none, isListening := false,
                engineActive := s.engineActive.erase sid },
       [Effect.engineStop sid, Effect.announce "Voice commands deactivated."]) := by
    simp [step, h]
  rw [hstep]
  refine ⟨rfl, rfl, rfl, ?_, ?_⟩ <;> simp [step]

/-- Witness for C6 on a listening controller owning session 0. -/
theorem stopListening_clears_handle_no_restart_witness :
    (CtrlState.mk true true none (some 0) 1 [0]).ownedSession = some 0 ∧
    ((step noHandlers (CtrlState.mk true true none (some 0) 1 [0])
        Ev.stopListening).1.ownedSession = none ∧
     (step noHandlers (CtrlState.mk true true none (some 0) 1 [0])
        Ev.stopListening).1.isListening = false ∧
     (step noHandlers (CtrlState.mk true true none (some 0) 1 [0])
        Ev.stopListening).2 =
       [Effect.engineStop 0, Effect.announce "Voice commands deactivated."] ∧
     (step noHandlers
        (step noHandlers (CtrlState.mk true true none (some 0) 1 [0])
          Ev.stopListening).1 (Ev.onend 0)).2 = [] ∧
     (step noHandlers
        (step noHandlers (CtrlState.mk true true none (some 0) 1 [0])
          Ev.stopListening).1 (Ev.onend 0)).1.ownedSession = none) :=
  ⟨rfl, stopListening_clears_handle_no_restart noHandlers
     (CtrlState.mk true true none (some 0) 1 [0]) 0 rfl⟩

/-- Claim C7: a `not-allowed` engine error always forces `isListening` to
false regardless of prior state, produces exactly one spoken
permission-denied notice, and neither clears the owned session handle nor
stops the engine session. -/
theorem onerror_not_allowed_forces_idle (reg : HandlerReg) (s : CtrlState) (sid : Nat) :
    step reg s (Ev.onerror sid "not-allowed") =
      ({ s with isListening := false },
       [Effect.speak "Microphone permission denied. Please allow microphone access."]) ∧
    (step reg s (Ev.onerror sid "not-allowed")).1.ownedSession = s.ownedSession ∧
    (step reg s (Ev.onerror sid "not-allowed")).1.engineActive = s.engineActive := by
  have hstep : step reg s (Ev.onerror sid "not-allowed") =
      ({ s with isListening := false },
       [Effect.speak "Microphone permission denied. Please allow microphone access."]) := by
    simp [step]
  rw [hstep]
  exact ⟨rfl, rfl, rfl⟩

/-- Claim C8: `no-speech` and `aborted` engine errors change nothing and
produce no announcement or speech at all. -/
theorem onerror_benign_silent (reg : HandlerReg) (s : CtrlState) (sid : Nat)
    (kind : String) (h : kind = "no-speech" ∨ kind = "aborted") :
    step reg s (Ev.onerror sid kind) = (s, []) := by
  rcases h with h | h <;> subst h <;> simp [step]

/-- Witness for C8 with a `no-speech` error on a fresh controller. -/
theorem onerror_benign_silent_witness :
    (("no-speech" : String) = "no-speech" ∨ ("no-speech" : String) = "aborted") ∧
    step noHandlers (initState true) (Ev.onerror 0 "no-speech") = (initState true, []) :=
  ⟨Or.inl rfl, onerror_benign_silent noHandlers (initState true) 0 "no-speech" (Or.inl rfl)⟩

/-- Claim C9: `stopListening` at idle (no owned session handle) is a
no-op: the state is unchanged and no effect is produced. -/
theorem stopListening_idle_noop (reg : HandlerReg) (s : CtrlState)
    (h : s.ownedSession = none) :
    step reg s Ev.stopListening = (s, []) := by
  simp [step, h]

/-- Witness for C9 on a freshly mounted controller. -/
theorem stopListening_idle_noop_witness :
    (initState true).ownedSession = none ∧
    step noHandlers (initState true) Ev.stopListening = (initState true, []) :=
  ⟨rfl, stopListening_idle_noop noHandlers (initState true) rfl⟩

/-- Counterexample to claim C2 as stated: `startListening` does not null
out or stop the previously owned session before starting a new one — it
merely overwrites the handle — so the call sequence startListening;
startListening on a fresh supported controller leaves two engine sessions
active at once (sessions 0 and 1). -/
theorem double_start_two_active_sessions :
    (run noHandlers (initState true) [Ev.startListening, Ev.startListening]).engineActive
      = [1, 0] ∧
    (run noHandlers (initState true)
        [Ev.startListening, Ev.startListening]).engineActive.length = 2 := by
  decide

/-- Claim C2 (amended): provided `startListening` is only invoked while no
session handle is owned — the discipline `toggleListening` enforces — at
most one engine session is active at any time along any interleaving with
`stopListening` calls and engine events; moreover with no owned handle no
session is active, and an active session is always the owned one. -/
theorem at_most_one_active_session (reg : HandlerReg) (s : CtrlState)
    (h : ReachableT reg s) :
    s.engineActive.length ≤ 1 ∧
    (s.ownedSession = none → s.engineActive = []) ∧
    (∀ sid, s.engineActive = [sid] → s.ownedSession = some sid) := by
  have hinv := reachable_sessionInv h
  refine ⟨?_, hinv.1, ?_⟩
  · cases hs : s.ownedSession with
    | none => simp [hinv.1 hs]
    | some sid => rcases hinv.2 sid hs with h1 | h1 <;> simp [h1]
  · intro sid hsid
    cases hs : s.ownedSession with
    | none =>
      rw [hinv.1 hs] at hsid
      exact absurd hsid (by simp)
    | some r =>
      rcases hinv.2 r hs with h1 | h1
      · rw [h1] at hsid
        exact absurd hsid (by simp)
      · rw [h1] at hsid
        have hr : r = sid := by simpa using hsid
        exact congrArg some hr

/-- Witness for the amended C2 after one disciplined start. -/
theorem at_most_one_active_session_witness :
    (run noHandlers (initState true) [Ev.startListening]).engineActive.length ≤ 1 := by
  have h1 : ReachableT noHandlers (initState true) := ReachableT.init true
  have h2 : ReachableT noHandlers
      (run noHandlers (initState true) [Ev.startListening]) :=
    ReachableT.startL h1 rfl
  exact (at_most_one_active_session noHandlers _ h2).1

/-- Claim C10: the Scan page's add-command callback speaks the no-product
guard message and dispatches no keyboard event when no current product is
selected, and speaks the adding message and dispatches exactly one keydown
event with key "a" when one is selected. -/
theorem scan_onAdd_spec (p : Product) :
    scanOnAdd none =
      [PageEffect.speak "No product selected. Please scan a product first."] ∧
    (scanOnAdd none).filter PageEffect.isKeydown = [] ∧
    scanOnAdd (some p) =
      [PageEffect.speak "Adding item to cart.", PageEffect.dispatchKeydown "a"] ∧
    (scanOnAdd (some p)).filter PageEffect.isKeydown = [PageEffect.dispatchKeydown "a"] :=
  ⟨rfl, rfl, rfl, rfl⟩
